import Mathlib

/-!
Verification of the selenium test-harness core (`utils.py`): the `Browser`
session wrapper (retry loop, readiness gate, negative probes, wait shortcut,
callable-session shorthand) and the ordered test runner
(`run_numbered_tests`).  Every definition below is a shallow embedding of the
corresponding Python function; stateful code is modelled by explicit state
passing, raised exceptions by `Except`, and interactions with the remote
driver by explicit event traces or outcome parameters.
-/

/-! ## Exception taxonomy

`selenium.common.exceptions`: `TimeoutException`, `NoSuchElementException`
and `StaleElementReferenceException` all subclass `WebDriverException`;
`AssertionError` is a plain Python exception.  `retry_loop` catches
`(WebDriverException, TimeoutException, StaleElementReferenceException,
AssertionError)`, which therefore also covers `NoSuchElementException`. -/

inductive SelErr where
  | webDriver
  | timeout
  | staleElement
  | noSuchElement
  | assertionError (msg : String)
  | typeError (msg : String)
  | otherExc (tag : String)
deriving DecidableEq

/-- The exception classes caught by `Browser.retry_loop`'s `except` clause. -/
def is_transient : SelErr → Bool
  | .webDriver => true
  | .timeout => true
  | .staleElement => true
  | .noSuchElement => true
  | .assertionError _ => true
  | .typeError _ => false
  | .otherExc _ => false

/-! ## `Browser.retry_loop` (utils.py:338-352)

    while counter > 1:
        try:
            return retry_hook()
        except (WebDriverException, TimeoutException,
                StaleElementReferenceException, AssertionError):
            time.sleep(0.5)
            counter -= 1
    return retry_hook()

The hook is stateful in Python (each invocation may behave differently), so
it is embedded as a function of the invocation index.  The embedding also
returns the number of times the hook was invoked. -/

def retry_loop_aux {α : Type} (hook : Nat → Except SelErr α) :
    Nat → Nat → Except SelErr α × Nat
  | 0, calls => (hook calls, calls + 1)
  | 1, calls => (hook calls, calls + 1)
  | counter + 2, calls =>
    match hook calls with
    | .ok a => (.ok a, calls + 1)
    | .error e =>
      if is_transient e then retry_loop_aux hook (counter + 1) (calls + 1)
      else (.error e, calls + 1)

def retry_loop {α : Type} (counter : Nat) (retry_hook : Nat → Except SelErr α) :
    Except SelErr α × Nat :=
  retry_loop_aux retry_hook counter 0

/-- Concrete hook used to witness the retry-loop theorem: fails with a
timeout on its first two invocations, then returns 7. -/
def hookC1 : Nat → Except SelErr Nat :=
  fun i => if i < 2 then .error .timeout else .ok 7

/-! ## `Browser.wait_until_ready` (utils.py:525-541)

    u = urlparse.urlparse(self.current_url)
    if ( ('.about.me' or '127.0.0.1') in u.hostname
        and not u.path.startswith('/content/')):
        counter = 30
        result = False
        while (counter > 0):
            result = self._driver.execute_script('return window.selenium_ready')
            if (result):
                break
            counter = counter - 1
            time.sleep(.1)
        assert result, "window.selenium_ready wasn't true"

Note the guard: in Python `('.about.me' or '127.0.0.1')` evaluates to the
first truthy operand `'.about.me'`, so the `'127.0.0.1'` literal is dead and
only hostnames containing `'.about.me'` are gated.  The embedding keeps this
behaviour exactly.  `flag i` is the value of `window.selenium_ready` at the
i-th script evaluation; the result is the function outcome paired with the
number of script evaluations (polls) performed. -/

def pyStartsWith (s pre : String) : Bool :=
  pre.data.isPrefixOf s.data

def strContains (hay needle : String) : Bool :=
  (List.range (hay.data.length + 1)).any
    (fun i => needle.data.isPrefixOf (hay.data.drop i))

def ready_poll (flag : Nat → Bool) : Nat → Nat → Bool × Nat
  | 0, polls => (false, polls)
  | counter + 1, polls =>
    if flag polls then (true, polls + 1)
    else ready_poll flag counter (polls + 1)

def wait_until_ready (hostname path : String) (flag : Nat → Bool) :
    Except SelErr Unit × Nat :=
  if strContains hostname ".about.me" && !(pyStartsWith path "/content/") then
    let r := ready_poll flag 30 0
    (if r.1 then .ok () else .error (.assertionError "window.selenium_ready wasn't true"), r.2)
  else (.ok (), 0)

/-! ## `run_numbered_tests` selection and ordering (utils.py:719-727)

    for test in (getattr(test_entity, name, lambda b: None)
            for name in sorted(dir(test_entity))
            if name[5:7] in ['%02d' % i for i in test_range]):

A method name is selected iff its character slice `[5:7]` equals the
zero-padded rendering `'%02d' % i` of some ordinal `i` in
`range(initial, through + 1)`, and the selected methods run in the order of
Python's `sorted`, i.e. lexicographically by code point on the full name. -/

def digitChar : Nat → Char
  | 0 => '0' | 1 => '1' | 2 => '2' | 3 => '3' | 4 => '4'
  | 5 => '5' | 6 => '6' | 7 => '7' | 8 => '8' | 9 => '9'
  | _ => '?'

/-- Decimal rendering of a natural number, fuel-structured (the fuel `n + 1`
always suffices since the argument shrinks by division by 10). -/
def decRepAux : Nat → Nat → List Char → List Char
  | 0, _, acc => acc
  | fuel + 1, n, acc =>
    if n < 10 then digitChar n :: acc
    else decRepAux fuel (n / 10) (digitChar (n % 10) :: acc)

def decRep (n : Nat) : List Char := decRepAux (n + 1) n []

/-- Python's `'%02d' % i` for a natural `i`: zero-padded to width two. -/
def pad2 (i : Nat) : String :=
  if i < 10 then ⟨'0' :: decRep i⟩ else ⟨decRep i⟩

/-- Python's `name[5:7]`. -/
def ordSlice (nm : String) : List Char := (nm.data.drop 5).take 2

/-- The selection test of the generator comprehension:
`name[5:7] in ['%02d' % i for i in range(initial, through + 1)]`. -/
def selectedTest (initial through : Nat) (nm : String) : Bool :=
  (List.range' initial (through + 1 - initial)).any
    (fun i => ordSlice nm == (pad2 i).data)

/-- Python string comparison: lexicographic by code point. -/
def pyStrLe : List Char → List Char → Bool
  | [], _ => true
  | _ :: _, [] => false
  | c :: cs, d :: ds =>
    if c.toNat < d.toNat then true
    else if d.toNat < c.toNat then false
    else pyStrLe cs ds

def pyLe (a b : String) : Bool := pyStrLe a.data b.data

/-- Insertion sort embedding Python's `sorted` (the comparison is total, so
insertion sort computes the same ordering as Timsort on distinct keys). -/
def pyInsert (x : String) : List String → List String
  | [] => [x]
  | y :: ys => if pyLe x y then x :: y :: ys else y :: pyInsert x ys

def pySorted : List String → List String
  | [] => []
  | x :: xs => pyInsert x (pySorted xs)

/-- The sequence of method names executed by the runner's generator:
`sorted(dir(test_entity))` filtered by the ordinal-slice test. -/
def run_order (names : List String) (initial through : Nat) : List String :=
  (pySorted names).filter (selectedTest initial through)

/-- A decimal digit character, characterised by its code point. -/
def isDig (c : Char) : Prop := 48 ≤ c.toNat ∧ c.toNat ≤ 57

instance (c : Char) : Decidable (isDig c) := by
  unfold isDig
  infer_instance

/-- Numeric value of a two-character ordinal slice (the ordinal a selected
method name encodes). -/
def ordVal (nm : String) : Nat :=
  (ordSlice nm).foldl (fun acc c => 10 * acc + (c.toNat - 48)) 0

/-! ## Readiness-gating traces (utils.py:408-448, 501-522, 544-587)

The temporal claim "element lookups invoke the readiness gate before their
driver query" is settled on event traces: each wrapper operation is embedded
as the sequence of its readiness-gate invocations and raw driver element
queries, parametrised by the quantities the trace depends on (poll counts of
`WebDriverWait`, retry attempts).  The selector properties (`css_selector`,
`xpath`, `id`, ...) wrap the raw driver lookup in
`_wait_until_ready_wrapper`; `not_find` instead calls
`self.find_element_by_css_selector`, which `__getattribute__` proxies
straight to the underlying driver. -/

inductive Ev where
  | readyGate
  | query (strategy : String) (sel : String)
deriving DecidableEq

/-- `gatedAux seen t`: every driver query in `t` is preceded by some earlier
readiness-gate invocation (`seen` records whether one has happened yet). -/
def gatedAux : Bool → List Ev → Bool
  | _, [] => true
  | _, .readyGate :: rest => gatedAux true rest
  | seen, .query _ _ :: rest => seen && gatedAux seen rest

def gated (t : List Ev) : Bool := gatedAux false t

/-- Trace of any selector property wrapped by `_wait_until_ready_wrapper`
(`class_name`, `css_selector`, `id`, `link_text`, `name`,
`partial_link_text`, `tag_name`, `xpath`). -/
def wrapped_lookup_tr (strategy sel : String) : List Ev :=
  [.readyGate, .query strategy sel]

def css_selector_tr (sel : String) : List Ev := wrapped_lookup_tr "css selector" sel

def xpath_tr (q : String) : List Ev := wrapped_lookup_tr "xpath" q

/-- Trace of `Browser.find(sel)` with the default `shortcut_method`
(`css_selector`, set in `__init__`). -/
def find_tr (sel : String) : List Ev := css_selector_tr sel

/-- The xpath query strings built by `Browser.contains`. -/
def contains_q (text tag : String) : String :=
  "//" ++ tag ++ "[contains(text(),\"" ++ text ++ "\")]"

def contains_fallback_q (text tag : String) : String :=
  "//" ++ tag ++ "//*[contains(text(),\"" ++ text ++ "\")]"

/-- Trace of one attempt of `Browser.contains`' `_do_it`: the first xpath
lookup and, when it raised `NoSuchElementException` and a specific tag was
requested, the descendant-text fallback lookup. -/
def contains_attempt_tr (text tag : String) (fallback : Bool) : List Ev :=
  xpath_tr (contains_q text tag) ++
    (if fallback then xpath_tr (contains_fallback_q text tag) else [])

/-- Trace of `Browser.contains` under `retry_loop(2, _do_it)`: one or two
attempts, each with or without the fallback lookup. -/
def contains_tr (text tag : String) (attempts : List Bool) : List Ev :=
  (attempts.map (contains_attempt_tr text tag)).flatten

def not_contains_q (text tag : String) : String :=
  "//" ++ tag ++ "[text()[contains(.,\"" ++ text ++ "\")]]"

/-- Trace of `Browser.not_contains`: one wrapped xpath probe (the wait-state
bookkeeping issues no element query). -/
def not_contains_tr (text tag : String) : List Ev :=
  xpath_tr (not_contains_q text tag)

/-- Trace of `Browser.not_find`: `self.find_element_by_css_selector` is a
proxied raw driver attribute, so the query reaches the driver without any
readiness gate. -/
def not_find_tr (sel : String) : List Ev :=
  [.query "css selector" sel]

/-- Trace of `Browser.__call__(val)` for a non-empty selector: a
`WebDriverWait` poll loop on `b.find(val)` (`p1 ≥ 1` predicate invocations),
a second poll loop on `b.find(val).is_displayed()` (`p2 ≥ 1` invocations),
then the final `self.find(val)`. -/
def call_tr (sel : String) (p1 p2 : Nat) : List Ev :=
  (List.replicate p1 (find_tr sel)).flatten ++
    (List.replicate p2 (find_tr sel)).flatten ++ find_tr sel

/-- Result of `Browser.__call__` (utils.py:501-522). -/
inductive CallResult where
  | actionChains
  | element (sel : String)
deriving DecidableEq

/-- `Browser.__call__(val=None)`: `if not val: return ActionChains(self)` —
both `None` and the empty string are falsy in Python. -/
def browser_call (val : Option String) (p1 p2 : Nat) : CallResult × List Ev :=
  match val with
  | none => (.actionChains, [])
  | some s =>
    if s = "" then (.actionChains, [])
    else (.element s, call_tr s p1 p2)

/-! ## Wait-timeout state (utils.py:183-192, 199-230, 408-448)

`default_wait` is a property whose setter stores the value in
`_default_wait` and forwards it to the driver's `implicitly_wait`;
`__init__` calls `self._driver.implicitly_wait(self.default_wait)` with the
class default 10.  The modelled state is the stored value paired with the
driver's implicit-wait setting. -/

structure BState where
  default_wait : Nat
  driver_wait : Nat
deriving DecidableEq

/-- Wait-related state established by `Browser.__init__`. -/
def browser_init : BState := ⟨10, 10⟩

/-- The `default_wait` property setter: stores and propagates. -/
def set_default_wait (_s : BState) (v : Nat) : BState := ⟨v, v⟩

/-- Outcome of the raw element probe inside `not_find` / `not_contains`. -/
inductive ProbeOutcome where
  | found (displayed : Bool)
  | noSuchElement
  | raised (e : SelErr)
deriving DecidableEq

/-- `Browser.not_find(selector, wait=1)` (utils.py:430-448): shrink the
default wait to `w`, probe, restore the saved value in `finally`; only
`NoSuchElementException` is swallowed, any other exception propagates. -/
def not_find (s : BState) (selector : String) (w : Nat) (outcome : ProbeOutcome) :
    Except SelErr Bool × BState :=
  let saved := s.default_wait
  let s1 := set_default_wait s w
  let res : Except SelErr Bool :=
    match outcome with
    | .found displayed => .ok (!displayed)
    | .noSuchElement => .ok true
    | .raised e => .error e
  (res, set_default_wait s1 saved)

/-- `Browser.not_contains(text, tag='*', wait=1)` (utils.py:408-427): same
wait-state discipline around an xpath probe. -/
def not_contains (s : BState) (text tag : String) (w : Nat) (outcome : ProbeOutcome) :
    Except SelErr Bool × BState :=
  let saved := s.default_wait
  let s1 := set_default_wait s w
  let res : Except SelErr Bool :=
    match outcome with
    | .found displayed => .ok (!displayed)
    | .noSuchElement => .ok true
    | .raised e => .error e
  (res, set_default_wait s1 saved)

/-! ## `run_numbered_tests` (utils.py:676-736)

A test group is embedded as its optional `setup` / `teardown` outcomes and
its attribute list (name, invocation outcome).  The td-first teardown
(`try: teardown() except: pass`) swallows its exception and touches no
modelled state.  `setup()` runs when `initial == 0` **outside** the `try`
statement, so its failure propagates out of the call (`.error`).  The
selected-methods loop and the final teardown run inside
`try/except/finally`; any exception there is printed by `traceback` and the
`finally` block's `return CURRENT_BROWSER` ends the call normally (`.ok`).
The log records what ran. -/

structure TestGroup where
  setup : Option (Except SelErr Unit)
  teardown : Option (Except SelErr Unit)
  methods : List (String × Except SelErr Unit)

def lookupMethod (g : TestGroup) (nm : String) : Option (Except SelErr Unit) :=
  (g.methods.find? (fun p => p.1 == nm)).map Prod.snd

/-- Whether `getattr(test_entity, nm, lambda b: None)()` returns normally
(the default lambda always does). -/
def methodOk (g : TestGroup) (nm : String) : Bool :=
  match lookupMethod g nm with
  | some (.error _) => false
  | _ => true

/-- The selected method names in execution order: the group's attribute
names, sorted, filtered by the ordinal-slice test. -/
def selected_names (g : TestGroup) (initial through : Nat) : List String :=
  run_order (g.methods.map Prod.fst) initial through

/-- The `for test in ...: test()` loop inside the `try`: the names executed
(in order, stopping at the first raising method) and the raised error. -/
def run_tests_loop (g : TestGroup) : List String → List String × Option SelErr
  | [] => ([], none)
  | nm :: rest =>
    match lookupMethod g nm with
    | some (.error e) => ([nm], some e)
    | _ =>
      let r := run_tests_loop g rest
      (nm :: r.1, r.2)

structure RunLog where
  setupRan : Bool
  executed : List String
  finalTeardownRan : Bool
deriving DecidableEq

/-- `run_numbered_tests(module, initial=0, through=99, td=True, ...)`. -/
def run_numbered_tests (g : TestGroup) (initial through : Nat) (td : Bool) :
    Except SelErr RunLog :=
  let setupRan := initial == 0 && g.setup.isSome
  match (if initial == 0 then g.setup else none) with
  | some (.error e) => .error e
  | _ =>
    let r := run_tests_loop g (selected_names g initial through)
    .ok ⟨setupRan, r.1, r.2.isNone && td && g.teardown.isSome⟩

/-- Scenario group of claim C8: `test_01`, `test_02`, `test_03` with a setup
and a teardown, everything succeeding. -/
def scenarioGroup : TestGroup :=
  ⟨some (.ok ()), some (.ok ()),
    [("test_01", .ok ()), ("test_02", .ok ()), ("test_03", .ok ())]⟩

/-- Group whose `setup` raises, refuting claim C6 as stated. -/
def badSetupGroup : TestGroup :=
  ⟨some (.error (.assertionError "setup failed")), some (.ok ()),
    [("test_01", .ok ())]⟩

/-- Group whose second test raises, for the C6 witness. -/
def failingGroup : TestGroup :=
  ⟨some (.ok ()), some (.ok ()),
    [("test_01", .ok ()), ("test_02", .error .webDriver), ("test_03", .ok ())]⟩

/-! ## `Browser.wait(*args)` (utils.py:300-334)

    if len(args) > 2:
        raise TypeError("Too many arguments")
    secs = self.default_wait
    until = None
    for arg in args:
        if isinstance(arg, (int, long, float)): secs = arg
        if callable(arg): until = arg
    if until: return WebDriverWait(self, secs).until(until)
    return WebDriverWait(self._driver, secs)

Callables are identified by an index, numerics modelled as naturals. -/

inductive WaitArg where
  | num (n : Nat)
  | func (f : Nat)
  | otherArg
deriving DecidableEq

inductive WaitRes where
  | waiter (secs : Nat)
  | untilRes (secs : Nat) (f : Nat)
deriving DecidableEq

/-- The `for arg in args` scan: last numeric and last callable win. -/
def wait_fold (default_wait : Nat) (args : List WaitArg) : Nat × Option Nat :=
  args.foldl
    (fun p arg =>
      match arg with
      | .num n => (n, p.2)
      | .func f => (p.1, some f)
      | .otherArg => p)
    (default_wait, none)

def browser_wait (default_wait : Nat) (args : List WaitArg) : Except SelErr WaitRes :=
  if args.length > 2 then .error (.typeError "Too many arguments")
  else
    match (wait_fold default_wait args).2 with
    | some f => .ok (.untilRes (wait_fold default_wait args).1 f)
    | none => .ok (.waiter (wait_fold default_wait args).1)

/-! ### Theorems -/

theorem retry_loop_aux_ok {α : Type} (hook : Nat → Except SelErr α) (a : α) :
    ∀ (k n calls : Nat), k < n →
    (∀ i, i < k → ∃ e, hook (calls + i) = .error e ∧ is_transient e = true) →
    hook (calls + k) = .ok a →
    retry_loop_aux hook n calls = (.ok a, calls + k + 1) := by
  intro k
  induction k with
  | zero =>
    intro n calls hk _ hok
    rw [Nat.add_zero] at hok
    match n, hk with
    | 1, _ => simp [retry_loop_aux, hok]
    | n + 2, _ => simp [retry_loop_aux, hok]
  | succ k ih =>
    intro n calls hk hfail hok
    match n, hk with
    | n + 2, _ =>
      obtain ⟨e, he, het⟩ := hfail 0 (Nat.succ_pos k)
      rw [Nat.add_zero] at he
      have hrec : retry_loop_aux hook (n + 2) calls
          = retry_loop_aux hook (n + 1) (calls + 1) := by
        simp [retry_loop_aux, he, het]
      rw [hrec]
      have hfail' : ∀ i, i < k →
          ∃ e, hook (calls + 1 + i) = .error e ∧ is_transient e = true := by
        intro i hi
        have := hfail (i + 1) (Nat.succ_lt_succ hi)
        have harith : calls + (i + 1) = calls + 1 + i := by omega
        rwa [harith] at this
      have hok' : hook (calls + 1 + k) = .ok a := by
        have harith : calls + (k + 1) = calls + 1 + k := by omega
        rwa [harith] at hok
      have := ih (n + 1) (calls + 1) (by omega) hfail' hok'
      rw [this]
      have harith : calls + 1 + k + 1 = calls + (k + 1) + 1 := by omega
      rw [harith]

theorem retry_loop_aux_exhaust {α : Type} (hook : Nat → Except SelErr α) :
    ∀ (n calls : Nat), 1 ≤ n →
    (∀ i, i < n → ∃ e, hook (calls + i) = .error e ∧ is_transient e = true) →
    ∃ e, hook (calls + (n - 1)) = .error e ∧
      retry_loop_aux hook n calls = (.error e, calls + n) := by
  intro n
  induction n with
  | zero => intro calls h; omega
  | succ m ih =>
    intro calls _ hfail
    match m with
    | 0 =>
      obtain ⟨e, he, _⟩ := hfail 0 Nat.one_pos
      rw [Nat.add_zero] at he
      exact ⟨e, by simpa using he, by simp [retry_loop_aux, he]⟩
    | m + 1 =>
      obtain ⟨e0, he0, het0⟩ := hfail 0 (Nat.succ_pos _)
      rw [Nat.add_zero] at he0
      have hfail' : ∀ i, i < m + 1 →
          ∃ e, hook (calls + 1 + i) = .error e ∧ is_transient e = true := by
        intro i hi
        have := hfail (i + 1) (Nat.succ_lt_succ hi)
        have harith : calls + (i + 1) = calls + 1 + i := by omega
        rwa [harith] at this
      obtain ⟨e, he, hres⟩ := ih (calls + 1) (Nat.succ_pos m) hfail'
      refine ⟨e, ?_, ?_⟩
      · have harith : calls + 1 + (m + 1 - 1) = calls + (m + 1 + 1 - 1) := by omega
        rwa [harith] at he
      · have hstep : retry_loop_aux hook (m + 1 + 1) calls
            = retry_loop_aux hook (m + 1) (calls + 1) := by
          simp [retry_loop_aux, he0, het0]
        rw [hstep, hres]
        have harith : calls + 1 + (m + 1) = calls + (m + 1 + 1) := by omega
        rw [harith]

theorem retry_loop_aux_calls {α : Type} (hook : Nat → Except SelErr α) :
    ∀ (n calls : Nat), calls + 1 ≤ (retry_loop_aux hook n calls).2 := by
  intro n
  induction n with
  | zero => intro calls; simp [retry_loop_aux]
  | succ m ih =>
    intro calls
    match m with
    | 0 => simp [retry_loop_aux]
    | m + 1 =>
      show calls + 1 ≤ (retry_loop_aux hook (m + 2) calls).2
      cases hh : hook calls with
      | ok a => simp [retry_loop_aux, hh]
      | error e =>
        by_cases ht : is_transient e = true
        · have : retry_loop_aux hook (m + 2) calls
              = retry_loop_aux hook (m + 1) (calls + 1) := by
            simp [retry_loop_aux, hh, ht]
          rw [this]
          have := ih (calls + 1)
          omega
        · simp [retry_loop_aux, hh, ht]

/-- Claim C1: for every operation and attempt budget n ≥ 1, if the operation
fails with a transient failure (a kind caught by `retry_loop`'s except
clause) on exactly its first k invocations and then succeeds with k < n, the
loop returns the successful result having invoked the operation exactly k+1
times; if the first n invocations all fail transiently (k ≥ n), the loop
invokes the operation exactly n times and propagates the n-th invocation's
failure; and in all cases the operation is invoked at least once. -/
theorem C1_retry_loop {α : Type} (n k : Nat) (hook : Nat → Except SelErr α)
    (hn : 1 ≤ n)
    (hfail : ∀ i, i < k → ∃ e, hook i = .error e ∧ is_transient e = true) :
    (∀ a, k < n → hook k = .ok a → retry_loop n hook = (.ok a, k + 1))
    ∧ (n ≤ k → ∃ e, hook (n - 1) = .error e ∧ retry_loop n hook = (.error e, n))
    ∧ 1 ≤ (retry_loop n hook).2 := by
  refine ⟨?_, ?_, ?_⟩
  · intro a hk hok
    have := retry_loop_aux_ok hook a k n 0 hk
      (by intro i hi; simpa using hfail i hi) (by simpa using hok)
    simpa [retry_loop] using this
  · intro hnk
    have hfail' : ∀ i, i < n → ∃ e, hook (0 + i) = .error e ∧ is_transient e = true := by
      intro i hi
      simpa using hfail i (lt_of_lt_of_le hi hnk)
    obtain ⟨e, he, hres⟩ := retry_loop_aux_exhaust hook n 0 hn hfail'
    exact ⟨e, by simpa using he, by simpa [retry_loop] using hres⟩
  · have := retry_loop_aux_calls hook n 0
    simpa [retry_loop] using this

/-- Witness for C1: a hook failing transiently twice then succeeding, under a
budget of 4 attempts, succeeds with exactly 3 invocations; the same theorem's
at-least-once part also evaluates. -/
theorem C1_retry_loop_witness :
    retry_loop 4 hookC1 = (.ok 7, 3) ∧ 1 ≤ (retry_loop 4 hookC1).2 := by
  have h := C1_retry_loop 4 2 hookC1 (by decide)
    (by
      intro i hi
      refine ⟨.timeout, ?_, rfl⟩
      unfold hookC1
      rw [if_pos hi])
  exact ⟨h.1 7 (by decide) rfl, h.2.2⟩

/-- Claim C2 (code bug): navigation to an in-domain path under the default
domain `127.0.0.1:8080` should, per the claim, make `wait_until_ready` poll
`window.selenium_ready` up to 30 times and raise an assertion error when the
flag never becomes true; the code instead skips the gate entirely for such
hostnames (zero polls, normal return), because `('.about.me' or '127.0.0.1')`
evaluates to `'.about.me'` and the `'127.0.0.1'` literal is dead.  For a
hostname containing `'.about.me'` the code does behave as claimed: 30 polls
and an assertion error when the flag is never true, and an immediate
successful return at the first true poll. -/
theorem C2_wait_until_ready_bug :
    wait_until_ready "127.0.0.1" "/" (fun _ => false) = (.ok (), 0)
    ∧ wait_until_ready "test.about.me" "/" (fun _ => false)
        = (.error (.assertionError "window.selenium_ready wasn't true"), 30)
    ∧ wait_until_ready "test.about.me" "/" (fun i => i == 4) = (.ok (), 5) := by
  refine ⟨rfl, rfl, rfl⟩

/-! ### Ordering lemmas for the runner's `sorted` -/

theorem pyStrLe_total : ∀ a b : List Char, pyStrLe a b = true ∨ pyStrLe b a = true := by
  intro a
  induction a with
  | nil => intro b; left; rfl
  | cons c cs ih =>
    intro b
    cases b with
    | nil => right; rfl
    | cons d ds =>
      by_cases h1 : c.toNat < d.toNat
      · left; simp [pyStrLe, h1]
      · by_cases h2 : d.toNat < c.toNat
        · right; simp [pyStrLe, h2]
        · rcases ih ds with h | h
          · left; simp [pyStrLe, h1, h2, h]
          · right; simp [pyStrLe, h1, h2, h]

theorem pyStrLe_trans : ∀ a b c : List Char,
    pyStrLe a b = true → pyStrLe b c = true → pyStrLe a c = true := by
  intro a
  induction a with
  | nil => intro b c _ _; rfl
  | cons x xs ih =>
    intro b c hab hbc
    cases b with
    | nil => simp [pyStrLe] at hab
    | cons y ys =>
      cases c with
      | nil => simp [pyStrLe] at hbc
      | cons z zs =>
        simp only [pyStrLe] at hab hbc ⊢
        split_ifs at hab hbc ⊢ <;>
          first
          | rfl
          | exact absurd hab Bool.false_ne_true
          | exact absurd hbc Bool.false_ne_true
          | omega
          | exact ih ys zs hab hbc

theorem pyStrLe_append_same : ∀ (p u v : List Char),
    pyStrLe (p ++ u) (p ++ v) = pyStrLe u v := by
  intro p u v
  induction p with
  | nil => rfl
  | cons c cs ih => simp [pyStrLe, ih]

theorem mem_pyInsert : ∀ (x : String) (l : List String) (y : String),
    y ∈ pyInsert x l ↔ y = x ∨ y ∈ l := by
  intro x l
  induction l with
  | nil => intro y; simp [pyInsert]
  | cons z zs ih =>
    intro y
    by_cases h : pyLe x z = true
    · simp only [pyInsert, if_pos h, List.mem_cons]
    · simp only [pyInsert, if_neg h, List.mem_cons, ih]
      tauto

theorem mem_pySorted : ∀ (l : List String) (y : String), y ∈ pySorted l ↔ y ∈ l := by
  intro l
  induction l with
  | nil => intro y; simp [pySorted]
  | cons x xs ih =>
    intro y
    show y ∈ pyInsert x (pySorted xs) ↔ _
    rw [mem_pyInsert]
    simp [ih]

theorem pairwise_pyInsert (x : String) : ∀ (l : List String),
    l.Pairwise (fun a b => pyLe a b = true) →
    (pyInsert x l).Pairwise (fun a b => pyLe a b = true) := by
  intro l
  induction l with
  | nil => intro _; simp [pyInsert]
  | cons z zs ih =>
    intro hp
    rw [List.pairwise_cons] at hp
    obtain ⟨hz, hzs⟩ := hp
    by_cases h : pyLe x z = true
    · simp only [pyInsert, if_pos h]
      rw [List.pairwise_cons]
      refine ⟨?_, ?_⟩
      · intro b hb
        rcases List.mem_cons.mp hb with rfl | hb
        · exact h
        · exact pyStrLe_trans x.data z.data b.data h (hz b hb)
      · rw [List.pairwise_cons]
        exact ⟨hz, hzs⟩
    · simp only [pyInsert, if_neg h]
      rw [List.pairwise_cons]
      refine ⟨?_, ih hzs⟩
      intro b hb
      rcases (mem_pyInsert x zs b).mp hb with heq | hb
      · rcases pyStrLe_total x.data z.data with ht | ht
        · exact absurd ht h
        · rw [heq]
          exact ht
      · exact hz b hb

theorem pairwise_pySorted : ∀ l : List String,
    (pySorted l).Pairwise (fun a b => pyLe a b = true) := by
  intro l
  induction l with
  | nil => simp [pySorted]
  | cons x xs ih => exact pairwise_pyInsert x (pySorted xs) ih

/-! ### Two-digit ordinal lemmas -/

theorem digitChar_isDig (n : Nat) (h : n < 10) : isDig (digitChar n) := by
  interval_cases n <;> decide

theorem decRep_lt10 (n : Nat) (h : n < 10) : decRep n = [digitChar n] := by
  simp [decRep, decRepAux, if_pos h]

theorem decRep_two (n : Nat) (h10 : 10 ≤ n) (h100 : n < 100) :
    decRep n = [digitChar (n / 10), digitChar (n % 10)] := by
  obtain ⟨m, rfl⟩ : ∃ m, n = m + 1 := ⟨n - 1, by omega⟩
  show decRepAux (m + 1 + 1) (m + 1) [] = _
  simp only [decRepAux]
  rw [if_neg (by omega)]
  rw [if_pos (by omega)]

theorem decRepAux_len : ∀ (fuel m : Nat) (acc : List Char), 0 < fuel → m < 10 ^ fuel →
    acc.length + 1 ≤ (decRepAux fuel m acc).length := by
  intro fuel
  induction fuel with
  | zero => intro m acc h; omega
  | succ f ih =>
    intro m acc _ hm
    simp only [decRepAux]
    by_cases h : m < 10
    · rw [if_pos h]; simp
    · rw [if_neg h]
      have hf : 0 < f := by
        rcases Nat.eq_zero_or_pos f with rfl | hp
        · exfalso
          have h10 : (10 : Nat) ^ (0 + 1) = 10 := by norm_num
          omega
        · exact hp
      have hm' : m / 10 < 10 ^ f := by
        rw [Nat.div_lt_iff_lt_mul (by omega)]
        calc m < 10 ^ (f + 1) := hm
        _ = 10 ^ f * 10 := by ring
      have := ih (m / 10) (digitChar (m % 10) :: acc) hf hm'
      simp only [List.length_cons] at this
      omega

theorem decRep_len3 (i : Nat) (h : 100 ≤ i) : 3 ≤ (decRep i).length := by
  obtain ⟨m, rfl⟩ : ∃ m, i = m + 1 := ⟨i - 1, by omega⟩
  show 3 ≤ (decRepAux (m + 1 + 1) (m + 1) []).length
  simp only [decRepAux]
  rw [if_neg (by omega)]
  rw [if_neg (by omega : ¬ (m + 1) / 10 < 10)]
  have h1 : 0 < m := by omega
  have h2 : (m + 1) / 10 / 10 < 10 ^ m := by
    have hlt : m < 10 ^ m := Nat.lt_pow_self (by norm_num) m
    have hle : (m + 1) / 10 / 10 ≤ m := by omega
    omega
  have := decRepAux_len m ((m + 1) / 10 / 10)
    (digitChar ((m + 1) / 10 % 10) :: [digitChar ((m + 1) % 10)]) h1 h2
  simp only [List.length_cons, List.length_singleton] at this
  omega

theorem selectedTest_iff (initial through : Nat) (nm : String) :
    selectedTest initial through nm = true ↔
    ∃ j, initial ≤ j ∧ j ≤ through ∧ ordSlice nm = (pad2 j).data := by
  unfold selectedTest
  rw [List.any_eq_true]
  constructor
  · rintro ⟨j, hj, hbeq⟩
    rw [List.mem_range'] at hj
    obtain ⟨i, hi, rfl⟩ := hj
    exact ⟨initial + 1 * i, by omega, by omega, eq_of_beq hbeq⟩
  · rintro ⟨j, h1, h2, heq⟩
    refine ⟨j, ?_, beq_iff_eq.mpr heq⟩
    rw [List.mem_range']
    exact ⟨j - initial, by omega, by omega⟩

theorem selected_digits (initial through : Nat) (nm : String)
    (h : selectedTest initial through nm = true) :
    ∃ c1 c2, ordSlice nm = [c1, c2] ∧ isDig c1 ∧ isDig c2 := by
  obtain ⟨j, _, _, heq⟩ := (selectedTest_iff initial through nm).mp h
  by_cases hj : j < 10
  · refine ⟨'0', digitChar j, ?_, by decide, digitChar_isDig j hj⟩
    rw [heq]
    unfold pad2
    rw [if_pos hj]
    show '0' :: decRep j = _
    rw [decRep_lt10 j hj]
  · by_cases hj2 : j < 100
    · refine ⟨digitChar (j / 10), digitChar (j % 10), ?_,
        digitChar_isDig _ (by omega), digitChar_isDig _ (by omega)⟩
      rw [heq]
      unfold pad2
      rw [if_neg hj]
      show decRep j = _
      exact decRep_two j (by omega) hj2
    · exfalso
      have hlen3 : 3 ≤ (decRep j).length := decRep_len3 j (by omega)
      have hdata : (pad2 j).data = decRep j := by
        unfold pad2
        rw [if_neg hj]
      have hlen : (ordSlice nm).length ≤ 2 := by
        unfold ordSlice
        rw [List.length_take]
        omega
      rw [heq, hdata] at hlen
      omega

theorem ordVal_le_of_pyLe (a b : String)
    (h5 : a.data.take 5 = b.data.take 5)
    (ha : ∃ c1 c2, ordSlice a = [c1, c2] ∧ isDig c1 ∧ isDig c2)
    (hb : ∃ c1 c2, ordSlice b = [c1, c2] ∧ isDig c1 ∧ isDig c2)
    (hle : pyLe a b = true) :
    ordVal a ≤ ordVal b := by
  obtain ⟨a1, a2, hsa, hda1, hda2⟩ := ha
  obtain ⟨b1, b2, hsb, hdb1, hdb2⟩ := hb
  have hadrop : a.data.drop 5 = a1 :: a2 :: (a.data.drop 5).drop 2 := by
    conv_lhs => rw [← List.take_append_drop 2 (a.data.drop 5)]
    rw [show (a.data.drop 5).take 2 = [a1, a2] from hsa]
    rfl
  have hbdrop : b.data.drop 5 = b1 :: b2 :: (b.data.drop 5).drop 2 := by
    conv_lhs => rw [← List.take_append_drop 2 (b.data.drop 5)]
    rw [show (b.data.drop 5).take 2 = [b1, b2] from hsb]
    rfl
  have hadata : a.data = a.data.take 5 ++ (a1 :: a2 :: (a.data.drop 5).drop 2) := by
    conv_lhs => rw [← List.take_append_drop 5 a.data]
    rw [← hadrop]
  have hbdata : b.data = a.data.take 5 ++ (b1 :: b2 :: (b.data.drop 5).drop 2) := by
    conv_lhs => rw [← List.take_append_drop 5 b.data]
    rw [← hbdrop, h5]
  have hle' : pyStrLe (a1 :: a2 :: (a.data.drop 5).drop 2)
      (b1 :: b2 :: (b.data.drop 5).drop 2) = true := by
    have : pyLe a b = pyStrLe (a1 :: a2 :: (a.data.drop 5).drop 2)
        (b1 :: b2 :: (b.data.drop 5).drop 2) := by
      unfold pyLe
      conv_lhs => rw [hadata, hbdata]
      exact pyStrLe_append_same _ _ _
    rwa [this] at hle
  have hva : ordVal a = 10 * (a1.toNat - 48) + (a2.toNat - 48) := by
    rw [ordVal, hsa]
    simp only [List.foldl]
    omega
  have hvb : ordVal b = 10 * (b1.toNat - 48) + (b2.toNat - 48) := by
    rw [ordVal, hsb]
    simp only [List.foldl]
    omega
  obtain ⟨hda1l, hda1r⟩ := hda1
  obtain ⟨hda2l, hda2r⟩ := hda2
  obtain ⟨hdb1l, hdb1r⟩ := hdb1
  obtain ⟨hdb2l, hdb2r⟩ := hdb2
  rw [hva, hvb]
  simp only [pyStrLe] at hle'
  split_ifs at hle' <;> omega

/-- Claim C3 (amended): for every start and end ordinal, `run_numbered_tests`
selects exactly those methods whose name carries, at the fixed slice `[5:7]`,
the zero-padded rendering of an ordinal between `initial` and `through`
inclusive, and invokes them in ascending lexicographic order of their full
names, regardless of declaration order; when all selected names agree on
their first five characters (the `test_` prefix of the naming convention)
that order is ascending ordinal order. -/
theorem C3_run_order_selection (names : List String) (initial through : Nat) :
    (∀ nm, nm ∈ run_order names initial through ↔
      nm ∈ names ∧ ∃ j, initial ≤ j ∧ j ≤ through ∧ ordSlice nm = (pad2 j).data)
    ∧ (run_order names initial through).Pairwise (fun a b => pyLe a b = true)
    ∧ ((∀ a, a ∈ run_order names initial through →
        ∀ b, b ∈ run_order names initial through → a.data.take 5 = b.data.take 5) →
      (run_order names initial through).Pairwise (fun a b => ordVal a ≤ ordVal b)) := by
  refine ⟨?_, ?_, ?_⟩
  · intro nm
    unfold run_order
    rw [List.mem_filter, mem_pySorted, selectedTest_iff]
  · exact (pairwise_pySorted names).sublist (List.filter_sublist _)
  · intro hpre
    have hp : (run_order names initial through).Pairwise (fun a b => pyLe a b = true) :=
      (pairwise_pySorted names).sublist (List.filter_sublist _)
    exact hp.imp_of_mem (fun hma hmb hab =>
      ordVal_le_of_pyLe _ _ (hpre _ hma _ hmb)
        (selected_digits _ _ _ (List.of_mem_filter hma))
        (selected_digits _ _ _ (List.of_mem_filter hmb)) hab)

/-- Witness for C3: a conventionally named group, declared out of order, runs
in ascending ordinal order. -/
theorem C3_run_order_witness :
    (run_order ["test_10_c", "test_02_a", "test_01_b"] 0 99).Pairwise
      (fun a b => ordVal a ≤ ordVal b) :=
  (C3_run_order_selection ["test_10_c", "test_02_a", "test_01_b"] 0 99).2.2 (by decide)

/-- Claim C3 counterexample: the runner sorts by the full method name, not by
the encoded ordinal, so a selected method whose prefix differs runs out of
ordinal order: with methods `test_01_y` and `best_02_x` (both carry a
two-digit ordinal at slice `[5:7]` and both are selected), the run order is
`best_02_x` (ordinal 2) before `test_01_y` (ordinal 1). -/
theorem C3_run_order_counterexample :
    run_order ["test_01_y", "best_02_x"] 0 99 = ["best_02_x", "test_01_y"]
    ∧ ordVal "best_02_x" = 2 ∧ ordVal "test_01_y" = 1
    ∧ ¬ (run_order ["test_01_y", "best_02_x"] 0 99).Pairwise
        (fun a b => ordVal a ≤ ordVal b) := by
  refine ⟨by decide, by decide, by decide, by decide⟩

/-! ### Gating lemmas -/

theorem gatedAux_true : ∀ t : List Ev, gatedAux true t = true := by
  intro t
  induction t with
  | nil => rfl
  | cons e rest ih =>
    cases e with
    | readyGate => simpa [gatedAux] using ih
    | query st sel => simpa [gatedAux] using ih

theorem gated_append (t u : List Ev) (ht : gatedAux false t = true)
    (hu : gatedAux false u = true) : gatedAux false (t ++ u) = true := by
  induction t with
  | nil => simpa using hu
  | cons e rest ih =>
    cases e with
    | readyGate =>
      show gatedAux true (rest ++ u) = true
      exact gatedAux_true _
    | query st sel =>
      exfalso
      simp [gatedAux] at ht

theorem gated_flatten (L : List (List Ev)) (h : ∀ t ∈ L, gatedAux false t = true) :
    gatedAux false L.flatten = true := by
  induction L with
  | nil => rfl
  | cons t rest ih =>
    rw [List.flatten_cons]
    exact gated_append t rest.flatten (h t (List.mem_cons_self t rest))
      (ih (fun u hu => h u (List.mem_cons_of_mem t hu)))

/-- Claim C4 (amended): every element-lookup operation of the wrapper
except `not_find` — `find` through any wrapped selector strategy, the
callable-session shorthand, `contains` (with and without its fallback and
retry), and `not_contains` — invokes the readiness gate before each element
query it issues to the driver; `not_find` issues its CSS query through the
proxied raw driver attribute with no readiness gate preceding it. -/
theorem C4_lookups_gated (strategy sel q text tag : String)
    (attempts : List Bool) (p1 p2 : Nat) :
    gated (wrapped_lookup_tr strategy sel) = true
    ∧ gated (find_tr sel) = true
    ∧ gated (call_tr sel p1 p2) = true
    ∧ gated (contains_tr text tag attempts) = true
    ∧ gated (not_contains_tr text tag) = true
    ∧ gated (not_find_tr sel) = false := by
  have hwrapped : ∀ st s, gatedAux false (wrapped_lookup_tr st s) = true := by
    intro st s
    rfl
  have hfind : gatedAux false (find_tr sel) = true := hwrapped _ _
  refine ⟨hwrapped _ _, hfind, ?_, ?_, hwrapped _ _, rfl⟩
  · unfold call_tr
    refine gated_append _ _ (gated_append _ _ ?_ ?_) hfind <;>
      exact gated_flatten _ (fun t ht => by
        rw [List.eq_of_mem_replicate ht]
        exact hfind)
  · unfold contains_tr
    refine gated_flatten _ ?_
    intro t ht
    obtain ⟨fb, _, rfl⟩ := List.mem_map.mp ht
    unfold contains_attempt_tr
    cases fb with
    | true => exact gated_append _ _ (hwrapped _ _) (by simpa using hwrapped "xpath" (contains_fallback_q text tag))
    | false => simpa using hwrapped "xpath" (contains_q text tag)

/-- Claim C4 counterexample: `not_find('#foo')` issues its element query to
the driver with no readiness-gate invocation before it — its trace is the
bare query and is not gated. -/
theorem C4_not_find_bypasses_gate :
    not_find_tr "#foo" = [.query "css selector" "#foo"]
    ∧ gated (not_find_tr "#foo") = false := ⟨rfl, rfl⟩

/-- Claim C5: after `not_find(selector, wait=w)` or
`not_contains(text, tag, wait=w)` returns or raises, the session's stored
default wait equals its prior value again — the `finally` block restores it
whatever the probe's outcome, including a propagating exception. -/
theorem C5_wait_restored (s : BState) (selector text tag : String) (w : Nat)
    (o1 o2 : ProbeOutcome) :
    ((not_find s selector w o1).2).default_wait = s.default_wait
    ∧ ((not_contains s text tag w o2).2).default_wait = s.default_wait :=
  ⟨rfl, rfl⟩

/-- Claim C10: the stored `default_wait` and the driver's implicit-wait
setting agree after construction, after any assignment through the
`default_wait` setter, and after the shrink/restore performed by the
negative probes. -/
theorem C10_wait_invariant (s : BState) (v : Nat) (selector text tag : String)
    (w : Nat) (o1 o2 : ProbeOutcome) :
    browser_init.default_wait = browser_init.driver_wait
    ∧ (set_default_wait s v).default_wait = (set_default_wait s v).driver_wait
    ∧ ((not_find s selector w o1).2).default_wait
        = ((not_find s selector w o1).2).driver_wait
    ∧ ((not_contains s text tag w o2).2).default_wait
        = ((not_contains s text tag w o2).2).driver_wait :=
  ⟨rfl, rfl, rfl, rfl⟩

/-! ### Runner containment lemmas -/

theorem run_tests_loop_spec (g : TestGroup) : ∀ names : List String,
    (run_tests_loop g names).1
      = names.takeWhile (methodOk g) ++ (names.dropWhile (methodOk g)).take 1 := by
  intro names
  induction names with
  | nil => rfl
  | cons nm rest ih =>
    by_cases h : methodOk g nm = true
    · have hlk : ∀ x, lookupMethod g nm = x → (x matches some (.error _)) = false := by
        intro x hx
        cases x with
        | none => rfl
        | some r =>
          cases r with
          | ok u => rfl
          | error e =>
            exfalso
            rw [methodOk, hx] at h
            simp at h
      rw [List.takeWhile_cons, if_pos h, List.dropWhile_cons, if_pos h]
      show (run_tests_loop g (nm :: rest)).1 = nm :: _
      unfold run_tests_loop
      cases hx : lookupMethod g nm with
      | none => simpa using ih
      | some r =>
        cases r with
        | ok u => simpa using ih
        | error e =>
          exfalso
          rw [methodOk, hx] at h
          simp at h
    · rw [List.takeWhile_cons, if_neg h, List.dropWhile_cons, if_neg h]
      unfold run_tests_loop
      cases hx : lookupMethod g nm with
      | none =>
        exfalso
        rw [methodOk, hx] at h
        simp at h
      | some r =>
        cases r with
        | ok u =>
          exfalso
          rw [methodOk, hx] at h
          simp at h
        | error e => rfl

theorem run_tests_loop_all_ok (g : TestGroup) : ∀ names : List String,
    (∀ nm ∈ names, methodOk g nm = true) → run_tests_loop g names = (names, none) := by
  intro names
  induction names with
  | nil => intro _; rfl
  | cons nm rest ih =>
    intro h
    have hnm := h nm (List.mem_cons_self nm rest)
    unfold run_tests_loop
    cases hx : lookupMethod g nm with
    | none => rw [ih (fun u hu => h u (List.mem_cons_of_mem nm hu))]
    | some r =>
      cases r with
      | ok u => rw [ih (fun u hu => h u (List.mem_cons_of_mem nm hu))]
      | error e =>
        exfalso
        rw [methodOk, hx] at hnm
        simp at hnm

/-- Claim C6 (amended): any exception raised inside the ordered sequence —
a selected test method or the final teardown — aborts the remaining
methods, is logged, and does not propagate: the call returns the shared
session handle, and the executed methods are the selected prefix up to and
including the first failing one.  However, an exception raised by the
group's `setup` (run when the start ordinal is 0, outside the protected
block) does propagate out of the call. -/
theorem C6_contained (g : TestGroup) (initial through : Nat) (td : Bool)
    (hsetup : ∀ e, g.setup = some (.error e) → initial ≠ 0) :
    ∃ log, run_numbered_tests g initial through td = .ok log
      ∧ log.executed
          = (selected_names g initial through).takeWhile (methodOk g)
            ++ ((selected_names g initial through).dropWhile (methodOk g)).take 1 := by
  have hscrut : (if initial == 0 then g.setup else none) = none
      ∨ (if initial == 0 then g.setup else none) = g.setup ∧ g.setup ≠ none
        ∧ (∀ e, g.setup ≠ some (.error e)) := by
    by_cases h0 : (initial == 0) = true
    · cases hsu : g.setup with
      | none => left; rw [if_pos h0]
      | some r =>
        cases r with
        | ok u =>
          right
          refine ⟨by rw [if_pos h0], by simp, ?_⟩
          intro e he
          simp at he
        | error e =>
          exfalso
          exact hsetup e hsu (by simpa using h0)
    · left
      rw [if_neg h0]
  unfold run_numbered_tests
  have hloop := run_tests_loop_spec g (selected_names g initial through)
  rcases hscrut with h | ⟨h, _, hne⟩
  · rw [h]
    exact ⟨_, rfl, hloop⟩
  · rw [h]
    cases hsu : g.setup with
    | none => exact ⟨_, rfl, hloop⟩
    | some r =>
      cases r with
      | ok u => exact ⟨_, rfl, hloop⟩
      | error e =>
        exfalso
        exact hne e hsu

/-- Witness for C6: a group whose second of three tests raises runs exactly
its first two selected methods, and the call still returns normally. -/
theorem C6_contained_witness :
    ∃ log, run_numbered_tests failingGroup 0 99 true = .ok log
      ∧ log.executed = ["test_01", "test_02"] := by
  obtain ⟨log, h1, h2⟩ := C6_contained failingGroup 0 99 true
    (by
      intro e he
      simp [failingGroup] at he)
  refine ⟨log, h1, ?_⟩
  rw [h2]
  decide

/-- Claim C6 counterexample: with `initial = 0` and a group whose `setup`
raises, `run_numbered_tests` does not return the session handle — the
setup's exception propagates out of the call, because `setup()` runs before
the `try` block. -/
theorem C6_setup_propagates :
    run_numbered_tests badSetupGroup 0 99 true
      = .error (.assertionError "setup failed") := rfl

/-- Claim C8: with teardown-first enabled (the default `td=True`), a group
carrying a succeeding setup and a teardown, and every selected method
succeeding, `run_numbered_tests` runs the group's setup iff the start
ordinal is 0, executes exactly the selected names in order, and runs the
final teardown. -/
theorem C8_setup_teardown (g : TestGroup) (initial through : Nat)
    (hsetup : g.setup = some (.ok ()))
    (hteardown : g.teardown.isSome = true)
    (hok : ∀ nm ∈ selected_names g initial through, methodOk g nm = true) :
    run_numbered_tests g initial through true
      = .ok ⟨initial == 0, selected_names g initial through, true⟩ := by
  unfold run_numbered_tests
  rw [run_tests_loop_all_ok g _ hok]
  have hsome : g.setup.isSome = true := by rw [hsetup]; rfl
  by_cases h0 : (initial == 0) = true
  · rw [if_pos h0, hsetup]
    simp [hsome, hteardown]
  · rw [if_neg h0]
    have h0f : (initial == 0) = false := by
      cases hb : (initial == 0) with
      | false => rfl
      | true => exact absurd hb h0
    simp [h0f, hsome, hteardown]

/-- Witness for C8: the claim's scenario — `initial=2, through=2` on a group
with `test_01`, `test_02`, `test_03` — executes only `test_02`, skips setup
(`setupRan = false`), and runs the final teardown. -/
theorem C8_setup_teardown_witness :
    run_numbered_tests scenarioGroup 2 2 true = .ok ⟨false, ["test_02"], true⟩ := by
  have h := C8_setup_teardown scenarioGroup 2 2 rfl rfl (by decide)
  rw [h]
  rfl

/-- Claim C7 (amended): `wait(*args)` raises `TypeError("Too many
arguments")` iff more than two positional arguments are supplied; any call
with at most two arguments returns normally — in particular two arguments
of the same kind are accepted silently, the later one winning. -/
theorem C7_wait_arity (default_wait : Nat) (args : List WaitArg) :
    (args.length > 2 →
      browser_wait default_wait args = .error (.typeError "Too many arguments"))
    ∧ (args.length ≤ 2 → ∃ r, browser_wait default_wait args = .ok r) := by
  constructor
  · intro h
    unfold browser_wait
    rw [if_pos h]
  · intro h
    unfold browser_wait
    rw [if_neg (by omega)]
    cases hx : (wait_fold default_wait args).2 with
    | none => exact ⟨_, rfl⟩
    | some f => exact ⟨_, rfl⟩

/-- Claim C7 counterexample: two numeric arguments (more than the one
numeric the claim allows) are inside the length-2 budget, so no TypeError
is raised — the call silently uses the second numeric as the timeout; two
callables are likewise accepted with the last one winning. -/
theorem C7_two_numerics_accepted :
    browser_wait 10 [.num 1, .num 2] = .ok (.waiter 2)
    ∧ browser_wait 10 [.func 0, .func 1] = .ok (.untilRes 10 1) := ⟨rfl, rfl⟩

/-- Witness for C7: three arguments raise the TypeError, one argument is
accepted. -/
theorem C7_wait_arity_witness :
    browser_wait 10 [.num 1, .num 2, .num 3] = .error (.typeError "Too many arguments")
    ∧ ∃ r, browser_wait 10 [.num 5] = .ok r :=
  ⟨(C7_wait_arity 10 [.num 1, .num 2, .num 3]).1 (by decide),
   (C7_wait_arity 10 [.num 5]).2 (by decide)⟩

/-- Claim C9: calling the session shorthand with a falsy selector — no
argument (`None`) or the empty string — returns the action-chain builder
and issues no element lookup; only a non-empty selector triggers the
presence-then-visibility double wait and returns the element. -/
theorem C9_call_shorthand (p1 p2 : Nat) (s : String) :
    browser_call none p1 p2 = (.actionChains, [])
    ∧ browser_call (some "") p1 p2 = (.actionChains, [])
    ∧ (s ≠ "" → browser_call (some s) p1 p2 = (.element s, call_tr s p1 p2)
        ∧ (browser_call (some s) p1 p2).2 ≠ []) := by
  refine ⟨rfl, rfl, ?_⟩
  intro hs
  have hb : browser_call (some s) p1 p2 = (.element s, call_tr s p1 p2) := by
    simp [browser_call, hs]
  refine ⟨hb, ?_⟩
  rw [hb]
  intro hnil
  have hlen := congrArg List.length hnil
  simp [call_tr, find_tr, css_selector_tr, wrapped_lookup_tr] at hlen

/-- Witness for C9: a concrete non-empty selector yields the element with
its double-wait trace, and the empty string yields the action-chain
builder. -/
theorem C9_call_witness :
    browser_call (some "#content") 1 1 = (.element "#content", call_tr "#content" 1 1)
    ∧ browser_call (some "") 1 1 = (.actionChains, []) :=
  ⟨((C9_call_shorthand 1 1 "#content").2.2 (by decide)).1,
   (C9_call_shorthand 1 1 "#content").2.1⟩
